import Mathlib

/-!
Verification development for the mcproxy gateway.

Shallow embedding of the Python sources (`server_manager.py`,
`config_reloader.py`, `tool_aggregator.py`, `api_manifest.py`,
`config_watcher.py`, `api_sandbox.py`).  Pure functions are translated
directly; stateful methods become explicit state passing; Python `str`
operations are modelled on `String`/`List Char`; CPython library calls that
cannot be embedded (the `ast` parser, `json.loads`, NFKC normalisation,
`difflib.SequenceMatcher.ratio`, the subprocess itself) are passed in as
explicit oracle parameters, and every branching decision around them is
translated from the source.
-/

/-! ## String helpers (Python `str` semantics on `List Char`) -/

/-- Lower-case an ASCII letter, as `str.lower` does on ASCII input. -/
def charLower (c : Char) : Char :=
  if 'A' ≤ c ∧ c ≤ 'Z' then Char.ofNat (c.toNat + 32) else c

/-- Python `str.lower` restricted to its ASCII behaviour. -/
def pyLower (s : String) : String :=
  String.mk (s.data.map charLower)

/-- The characters Python `str.strip()` and `str.split()` treat as whitespace
(ASCII part). -/
def isPyWs (c : Char) : Bool :=
  c = ' ' || c = '\t' || c = '\n' || c = '\r' || c = '\x0b' || c = '\x0c'

/-- Python `str.strip()` on the character list: drop leading and trailing
whitespace. -/
def listStrip (l : List Char) : List Char :=
  ((l.dropWhile isPyWs).reverse.dropWhile isPyWs).reverse

/-- Python `str.strip()`. -/
def pyStrip (s : String) : String :=
  String.mk (listStrip s.data)

/-- Python substring containment test (`pat in s` on strings). -/
def listInfix (pat : List Char) : List Char → Bool
  | [] => pat.isPrefixOf []
  | a :: rest => pat.isPrefixOf (a :: rest) || listInfix pat rest

/-- Python `s.split(sep, 1)` core: split at the first occurrence of `sep`,
returning the part before and the part after, or `none` when `sep` does not
occur. -/
def splitOnFirst (sep : List Char) : List Char → Option (List Char × List Char)
  | [] => if sep.isPrefixOf ([] : List Char) then some ([], []) else none
  | c :: rest =>
    if sep.isPrefixOf (c :: rest) then some ([], (c :: rest).drop sep.length)
    else (splitOnFirst sep rest).map (fun p => (c :: p.1, p.2))

/-- Python `s.split("\n")`: split at every newline, keeping empty pieces. -/
def splitOnNl : List Char → List (List Char)
  | [] => [[]]
  | c :: rest =>
    let r := splitOnNl rest
    if c = '\n' then [] :: r
    else
      match r with
      | h :: t => (c :: h) :: t
      | [] => [[c]]

/-- Python `"\n".join(lines)`. -/
def joinNl : List (List Char) → List Char
  | [] => []
  | [l] => l
  | l :: rest => l ++ '\n' :: joinNl rest

/-- Python `str.split()` with no argument: split on whitespace runs, dropping
empty words.  The accumulator holds the current word reversed. -/
def pySplitWsAux : List Char → List Char → List (List Char)
  | [], acc => if acc.isEmpty then [] else [acc.reverse]
  | c :: rest, acc =>
    if isPyWs c then
      if acc.isEmpty then pySplitWsAux rest []
      else acc.reverse :: pySplitWsAux rest []
    else pySplitWsAux rest (c :: acc)

/-- Python `str.split()` with no argument, on `String`. -/
def pySplitWs (s : String) : List String :=
  (pySplitWsAux s.data []).map String.mk

/-- Python `s.startswith(p)`. -/
def pyStartsWith (p s : String) : Bool :=
  p.data.isPrefixOf s.data

/-- Python `s[1:]`. -/
def strDropOne (s : String) : String :=
  String.mk (s.data.drop 1)

/-! ## A small JSON value type

Dictionaries and lists that the Python code merely passes through
(`inputSchema`, event `data` payloads, `json.loads` results) are modelled by
this opaque JSON value type. -/

/-- A JSON value as produced by `json.loads`. -/
inductive JVal
  | null
  | bool (b : Bool)
  | num (n : Int)
  | str (s : String)
  | arr (l : List JVal)
  | obj (fields : List (String × JVal))

/-- Python `d.get(key)` on a parsed JSON object; `none` for non-objects or
missing keys. -/
def jGet (v : JVal) (key : String) : Option JVal :=
  match v with
  | .obj fields => (fields.find? (fun p => p.1 = key)).map (·.2)
  | _ => none

/-! ## `tool_aggregator.py` -/

/-- `prefix_tool_name` (tool_aggregator.py line 13): format
`\x7bserver_name\x7d__\x7btool_name\x7d`. -/
def prefix_tool_name (server_name tool_name : String) : String :=
  server_name ++ "__" ++ tool_name

/-- `parse_prefixed_tool_name` (tool_aggregator.py line 73):
`prefixed_name.split("__", 1)`; `none` models the `ValueError` raised when
the split does not yield two parts. -/
def parse_prefixed_tool_name (prefixed_name : String) : Option (String × String) :=
  match splitOnFirst "__".data prefixed_name.data with
  | some (a, b) => some (String.mk a, String.mk b)
  | none => none

/-! ## `server_manager.py`: restart bookkeeping of `ServerProcess` -/

/-- The restart-relevant state of a `ServerProcess`: its `_restart_count`
and whether the child process is currently alive (`is_running`). -/
structure ServerState where
  restart_count : Nat
  running : Bool
deriving DecidableEq

/-- `ServerProcess._max_restarts` (server_manager.py line 46). -/
def max_restarts : Nat := 3

/-- `ServerProcess.start` (server_manager.py lines 59-129), abstracted over
whether the spawn/initialize/discover sequence succeeds (`ok`).  On success
the child is running and `_restart_count` is reset to zero (line 117); on any
failure `stop()` leaves the child dead and the counter untouched. -/
def ServerProcess.start (ok : Bool) (s : ServerState) : Bool × ServerState :=
  if ok then (true, { restart_count := 0, running := true })
  else (false, { s with running := false })

/-- `ServerProcess.restart_if_needed` (server_manager.py lines 164-183):
return `true` immediately if running; refuse once `_restart_count` has
reached `_max_restarts`; otherwise increment the counter and re-run
`start`. -/
def ServerProcess.restart_if_needed (ok : Bool) (s : ServerState) : Bool × ServerState :=
  if s.running then (true, s)
  else if max_restarts ≤ s.restart_count then (false, s)
  else ServerProcess.start ok { s with restart_count := s.restart_count + 1 }

/-! ## `server_manager.py`: the stream reader `_read_message` -/

/-- Python `line_str.startswith(("\x7b", "["))` (server_manager.py line 325). -/
def startsWithBracket (l : List Char) : Bool :=
  match l with
  | c :: _ => c = '\x7b' || c = '['
  | [] => false

/-- One pass of the `while line_count < max_lines` loop of
`ServerProcess._read_message` (server_manager.py lines 275-368), reading from
the list of remaining stdout lines.  `jsonLoads` is the `json.loads` oracle
(`none` models `json.JSONDecodeError`).  Exhausting `lines` models EOF, where
the source returns `None` whether or not the buffer is non-empty (an empty
buffer returns directly, a non-empty one breaks to the failure branch at the
bottom of the loop). -/
def readMessageLoop {J : Type} (jsonLoads : String → Option J) :
    List String → List Char → Nat → Option J
  | [], _, _ => none
  | l :: rest, buffer, line_count =>
    if 100 ≤ line_count then none
    else
      let line_count := line_count + 1
      let line_str := listStrip l.data
      if line_str.isEmpty then readMessageLoop jsonLoads rest buffer line_count
      else if listInfix "chunk".data (line_str.map charLower) &&
              listInfix "limit".data (line_str.map charLower) then none
      else if !startsWithBracket line_str then
        readMessageLoop jsonLoads rest buffer line_count
      else
        let buffer := if buffer.isEmpty then line_str else buffer ++ '\n' :: line_str
        match jsonLoads (String.mk buffer) with
        | some v => some v
        | none => readMessageLoop jsonLoads rest buffer line_count

/-- `ServerProcess._read_message` on a given sequence of stdout lines. -/
def read_message {J : Type} (jsonLoads : String → Option J) (lines : List String) : Option J :=
  readMessageLoop jsonLoads lines [] 0

/-! ## `config_reloader.py`: the hot-reload diff -/

/-- A server entry of the configuration file.  `name` and `command` are
required by config validation; the other fields may be absent
(`dict.get` returns `None` then). -/
structure ServerCfg where
  name : String
  command : String
  args : Option (List String)
  env : Option (List (String × String))
  timeout : Option Nat
  enabled : Option Bool
deriving DecidableEq

/-- `HotReloadServerManager._server_config_changed` (config_reloader.py lines
240-247): compare the fields `command`, `args`, `env`, `timeout`, `enabled`
structurally. -/
def server_config_changed (old new : ServerCfg) : Bool :=
  old.command != new.command || old.args != new.args || old.env != new.env ||
    old.timeout != new.timeout || old.enabled != new.enabled

/-- Key list of the Python dict `\x7bs["name"]: s for s in servers\x7d`:
insertion order of first occurrences. -/
def cfgNames (servers : List ServerCfg) : List String :=
  (servers.map (·.name)).dedup

/-- Value lookup of that dict: the last entry with the given name wins. -/
def lookupCfg (servers : List ServerCfg) (n : String) : Option ServerCfg :=
  servers.reverse.find? (fun s => s.name = n)

/-- The three diff sets of `HotReloadServerManager.reload_config`
(config_reloader.py lines 173-190): `(to_remove, to_add, to_update)`. -/
def reload_diff (oldCfg newCfg : List ServerCfg) :
    List String × List String × List String :=
  let old_names := cfgNames oldCfg
  let new_names := cfgNames newCfg
  let to_remove := old_names.filter (fun n => decide (n ∉ new_names))
  let to_add := new_names.filter (fun n => decide (n ∉ old_names))
  let to_check := old_names.filter (fun n => decide (n ∈ new_names))
  let to_update := to_check.filter (fun n =>
    match lookupCfg oldCfg n, lookupCfg newCfg n with
    | some o, some nw => server_config_changed o nw
    | _, _ => false)
  (to_remove, to_add, to_update)

/-- A process-affecting action taken by `reload_config`. -/
inductive ReloadAction
  | stopServer (n : String)
  | startServer (n : String)
deriving DecidableEq

/-- The process actions of `HotReloadServerManager.reload_config`
(config_reloader.py lines 192-229): stop every server of `to_remove` and of
`to_update`, then start every enabled server of `to_add ∪ to_update`. -/
def reload_actions (oldCfg newCfg : List ServerCfg) : List ReloadAction :=
  let d := reload_diff oldCfg newCfg
  let to_remove := d.1
  let to_add := d.2.1
  let to_update := d.2.2
  (to_remove.map .stopServer) ++ (to_update.map .stopServer) ++
    ((to_add ++ to_update).filter (fun n =>
        match lookupCfg newCfg n with
        | some c => c.enabled.getD true
        | none => false)).map .startServer

/-! ## `api_manifest.py`: namespace tables and inheritance resolution -/

/-- A namespace definition: either a bare list of server names or an object
with `servers`, `extends` and `isolated` keys (defaults `[]`, `[]`,
`false`). -/
inductive NsDef
  | listDef (servers : List String)
  | objDef (servers : List String) (extendsList : List String) (isolated : Bool)
deriving DecidableEq

/-- The `namespaces` table of the configuration (a Python dict with unique
keys, in insertion order). -/
abbrev NsTable : Type := List (String × NsDef)

/-- Python `self._namespaces.get(name)`. -/
def lookupNs (table : NsTable) (name : String) : Option NsDef :=
  (table.find? (fun p => decide (p.1 = name))).map (·.2)

/-- `CapabilityRegistry._get_servers_from_ns` (api_manifest.py lines 284-297). -/
def nsServers : NsDef → List String
  | .listDef servers => servers
  | .objDef servers _ _ => servers

/-- `CapabilityRegistry._get_extends` (api_manifest.py lines 269-282). -/
def nsExtends : NsDef → List String
  | .listDef _ => []
  | .objDef _ extendsList _ => extendsList

/-- `ns_def.get("isolated", False)` with the `isinstance(ns_def, dict)` guard
used at api_manifest.py lines 67-70 and config_watcher.py lines 430-433. -/
def nsIsolated : NsDef → Bool
  | .listDef _ => false
  | .objDef _ _ isolated => isolated

/-- Termination measure for the recursive namespace walk: the number of
table keys not yet on the visiting path. -/
def remainingKeys (table : NsTable) (visiting : List String) : Nat :=
  ((table.map Prod.fst).filter (fun k => decide (k ∉ visiting))).length

theorem lookupNs_mem_keys {table : NsTable} {ns : String} {d : NsDef}
    (h : lookupNs table ns = some d) : ns ∈ table.map Prod.fst := by
  unfold lookupNs at h
  cases hf : List.find? (fun p => decide (p.1 = ns)) table with
  | none => rw [hf] at h; exact absurd h (by simp)
  | some p =>
    have hp : p ∈ table := List.mem_of_find?_eq_some hf
    have heq : p.1 = ns := by
      have := List.find?_some hf
      simpa using this
    exact heq ▸ List.mem_map_of_mem Prod.fst hp

theorem remainingKeys_lt {table : NsTable} {visiting : List String} {ns : String}
    (h1 : ns ∈ table.map Prod.fst) (h2 : ns ∉ visiting) :
    remainingKeys table (ns :: visiting) < remainingKeys table visiting := by
  unfold remainingKeys
  have key : List.filter (fun k => decide (k ∉ ns :: visiting)) (table.map Prod.fst)
      = List.filter (fun k => decide (k ∉ ns :: visiting))
          (List.filter (fun k => decide (k ∉ visiting)) (table.map Prod.fst)) := by
    rw [List.filter_filter]
    apply List.filter_congr
    intro a _
    by_cases ha : a ∈ ns :: visiting
    · simp [ha]
    · have hav : a ∉ visiting := fun hv => ha (List.mem_cons_of_mem _ hv)
      simp [ha, hav]
  rw [key]
  have hmem : ns ∈ List.filter (fun k => decide (k ∉ visiting)) (table.map Prod.fst) :=
    List.mem_filter.mpr ⟨h1, by simpa using h2⟩
  exact List.length_filter_lt_length_iff_exists.mpr ⟨ns, hmem, by simp⟩

/-- `CapabilityRegistry._resolve_recursive` (api_manifest.py lines 321-349),
purified: the mutable `resolved` set accumulator becomes the returned list
(possibly with duplicates; `resolve_namespace` deduplicates), and the
`visiting` set — which in the source is grown on entry and shrunk on exit,
so holds exactly the current recursion path — becomes the `visiting`
argument of each recursive call. -/
def resolve_recursive (table : NsTable) (ns : String) (visiting : List String) : List String :=
  if ns ∈ visiting then []
  else
    match h : lookupNs table ns with
    | none => []
    | some d => nsServers d ++ (nsExtends d).flatMap (fun e => resolve_recursive table e (ns :: visiting))
termination_by remainingKeys table visiting
decreasing_by
  exact remainingKeys_lt (lookupNs_mem_keys h) (by assumption)

/-- Python `sorted` on a list of strings. -/
def pySorted (l : List String) : List String :=
  l.mergeSort (fun a b => decide (a ≤ b))

/-- `CapabilityRegistry.resolve_namespace` (api_manifest.py lines 299-319):
`none` models the `NamespaceInheritanceError` raised for an unknown
namespace; otherwise the sorted deduplicated collection of the recursive
walk started with an empty visiting set. -/
def resolve_namespace (table : NsTable) (namespace_ : String) : Option (List String) :=
  match lookupNs table namespace_ with
  | none => none
  | some _ => some (pySorted ((resolve_recursive table namespace_ []).dedup))

/-- Number of times the walk of `resolve_recursive` processes (enters the
body for) the namespace `target`; same recursion structure as
`resolve_recursive`. -/
def resolveVisits (table : NsTable) (ns : String) (visiting : List String) (target : String) : Nat :=
  if ns ∈ visiting then 0
  else
    match h : lookupNs table ns with
    | none => 0
    | some d =>
      (if ns = target then 1 else 0) +
        ((nsExtends d).map (fun e => resolveVisits table e (ns :: visiting) target)).sum
termination_by remainingKeys table visiting
decreasing_by
  exact remainingKeys_lt (lookupNs_mem_keys h) (by assumption)

/-- Reachability along `extends` edges: every namespace on the way must be
present in the table. -/
inductive Reaches (table : NsTable) : String → String → Prop
  | refl (ns : String) (d : NsDef) (h : lookupNs table ns = some d) :
      Reaches table ns ns
  | step (ns e m : String) (d : NsDef) (h : lookupNs table ns = some d)
      (he : e ∈ nsExtends d) (hr : Reaches table e m) : Reaches table ns m

/-- Reachability together with the explicit list of namespaces traversed. -/
inductive ReachesVia (table : NsTable) : String → List String → String → Prop
  | refl (ns : String) (d : NsDef) (h : lookupNs table ns = some d) :
      ReachesVia table ns [ns] ns
  | step (ns e m : String) (p : List String) (d : NsDef)
      (h : lookupNs table ns = some d) (he : e ∈ nsExtends d)
      (hr : ReachesVia table e p m) : ReachesVia table ns (ns :: p) m

/-! ## `api_manifest.py`: `validate_group` -/

/-- The `for ns_ref in ns_refs` loop of `validate_group` (api_manifest.py
lines 56-81), carrying the `is_valid` flag and the accumulated warnings. -/
def validate_group_loop (name : String) (namespaces : NsTable) :
    List String → Bool → List String → Bool × List String
  | [], is_valid, warnings => (is_valid, warnings)
  | ns_ref :: rest, is_valid, warnings =>
    let explicit_isolated := pyStartsWith "!" ns_ref
    let actual_name := if explicit_isolated then strDropOne ns_ref else ns_ref
    match lookupNs namespaces actual_name with
    | none =>
        validate_group_loop name namespaces rest false
          (warnings ++ ["Group \x27" ++ name ++ "\x27 references unknown namespace \x27"
            ++ actual_name ++ "\x27"])
    | some ns_def =>
        if nsIsolated ns_def && !explicit_isolated then
          validate_group_loop name namespaces rest false
            (warnings ++ ["Group \x27" ++ name ++ "\x27 references isolated namespace \x27"
              ++ actual_name ++ "\x27 without \x27!\x27 prefix - this is not allowed"])
        else if nsIsolated ns_def && explicit_isolated then
          validate_group_loop name namespaces rest is_valid
            (warnings ++ ["Group \x27" ++ name ++ "\x27 explicitly includes isolated namespace \x27"
              ++ actual_name ++ "\x27"])
        else validate_group_loop name namespaces rest is_valid warnings

/-- `validate_group` (api_manifest.py lines 35-83).  `group_namespaces` is
the `namespaces` list of the group definition (`group_def.get("namespaces",
[])`); an empty list is immediately invalid. -/
def validate_group (name : String) (group_namespaces : List String) (namespaces : NsTable) :
    Bool × List String :=
  if group_namespaces.isEmpty then
    (false, ["Group \x27" ++ name ++ "\x27 has no namespaces defined"])
  else validate_group_loop name namespaces group_namespaces true []

/-! ## `config_watcher.py`: `validate_groups`

The dynamic-typing guards of the source (group must be a dict with a
`namespaces` array of strings) are upstream of the structured input modelled
here; the per-reference logic of lines 416-448 is translated below.
`Except.error` models the raised `ConfigError`. -/

/-- Check of one namespace reference of a group (config_watcher.py lines
416-448). -/
def validate_groups_ref (group_name : String) (namespaces : NsTable) (ns_ref : String) :
    Except String Unit :=
  let has_force := pyStartsWith "!" ns_ref
  let actual_ns_name := if has_force then strDropOne ns_ref else ns_ref
  match lookupNs namespaces actual_ns_name with
  | none =>
      .error ("Group \x27" ++ group_name ++ "\x27 references unknown namespace \x27"
        ++ actual_ns_name ++ "\x27")
  | some ns_def =>
      if nsIsolated ns_def && !has_force then
        .error ("Group \x27" ++ group_name ++ "\x27 references isolated namespace \x27"
          ++ actual_ns_name ++ "\x27 without \x27!\x27 prefix. Use \x27!"
          ++ actual_ns_name ++ "\x27 to force inclusion.")
      else .ok ()

/-- The reference loop of `validate_groups` for one group; the first error
aborts (the source raises). -/
def validate_groups_refs (group_name : String) (namespaces : NsTable) :
    List String → Except String Unit
  | [] => .ok ()
  | r :: rest =>
    match validate_groups_ref group_name namespaces r with
    | .error e => .error e
    | .ok _ => validate_groups_refs group_name namespaces rest

/-- `validate_groups` (config_watcher.py lines 390-448) over the structured
groups table. -/
def validate_groups (groups : List (String × List String)) (namespaces : NsTable) :
    Except String Unit :=
  match groups with
  | [] => .ok ()
  | (g, refs) :: rest =>
    match validate_groups_refs g namespaces refs with
    | .error e => .error e
    | .ok _ => validate_groups rest namespaces

/-! ## `api_manifest.py`: manifest data and `ManifestQuery.search` -/

/-- A tool entry of `tools_by_server` (api_manifest.py lines 128-132). -/
structure ToolEntry where
  name : String
  description : String
  inputSchema : JVal

/-- A per-server record of `manifest["servers"]` (api_manifest.py lines
139-143). -/
structure ServerInfo where
  tool_count : Nat
  categories : List String
  status : String

/-- The built manifest (api_manifest.py lines 110-117). -/
structure ManifestData where
  version : String
  generated_at : String
  servers : List (String × ServerInfo)
  tools_by_server : List (String × List ToolEntry)
  tool_count : Nat
  server_count : Nat

/-- Python `d.get(k)` on an association list (dict in insertion order). -/
def alistGet {β : Type} (l : List (String × β)) (k : String) : Option β :=
  (l.find? (fun p => decide (p.1 = k))).map (·.2)

/-- The state of a `CapabilityRegistry`: `_manifest` (`none` models the
empty, not-yet-built dict), `_namespaces`, and the persisted cache file
content when it exists and is fresh (the TTL check of `load_cache` is folded
into presence). -/
structure RegistryState where
  manifest : Option ManifestData
  namespaces : NsTable
  cachedManifest : Option (ManifestData × NsTable)

/-- `CapabilityRegistry.get_servers` (api_manifest.py lines 171-188);
`Except.error` models the `NamespaceInheritanceError` escaping from
`resolve_namespace`. -/
def get_servers (reg : RegistryState) (namespace_ : Option String) :
    Except String (List String) :=
  match reg.manifest with
  | none => .ok []
  | some m =>
    match namespace_ with
    | none => .ok (m.servers.map Prod.fst)
    | some ns =>
      match resolve_namespace reg.namespaces ns with
      | none => .error ("Namespace not found: \x27" ++ ns ++ "\x27")
      | some resolved_servers =>
        .ok (resolved_servers.filter (fun s => decide (s ∈ m.servers.map Prod.fst)))

/-- `CapabilityRegistry.get_tools` (api_manifest.py lines 190-210). -/
def get_tools (reg : RegistryState) (server : String) (namespace_ : Option String) :
    Except String (List ToolEntry) :=
  match reg.manifest with
  | none => .ok []
  | some m =>
    match namespace_ with
    | none => .ok ((alistGet m.tools_by_server server).getD [])
    | some ns =>
      match resolve_namespace reg.namespaces ns with
      | none => .error ("Namespace not found: \x27" ++ ns ++ "\x27")
      | some allowed_servers =>
        if server ∈ allowed_servers then .ok ((alistGet m.tools_by_server server).getD [])
        else .ok []

/-- `ManifestQuery._fuzzy_match` (api_manifest.py lines 675-702), with
`difflib.SequenceMatcher(None, a, b).ratio()` supplied as the oracle
`ratio` (scores are modelled as rationals). -/
def fuzzy_match (ratio : String → String → ℚ) (query target : String) (threshold : ℚ) : ℚ :=
  if listInfix query.data target.data then 1
  else
    let query_words := pySplitWs query
    let target_words := pySplitWs target
    if query_words.isEmpty || target_words.isEmpty then ratio query target
    else
      let word_matches := query_words.countP (fun qw =>
        target_words.any (fun tw => listInfix qw.data tw.data || decide (threshold ≤ ratio qw tw)))
      (word_matches : ℚ) / (query_words.length : ℚ)

/-- `min_similarity` (api_manifest.py line 584). -/
def min_similarity : ℚ := mkRat 2 5

/-- A matched tool of a search result (api_manifest.py lines 642-649). -/
structure ToolMatch where
  name : String
  match_score : ℚ
  description : Option String
  inputSchema : Option JVal

/-- One entry of `results["results"]` (api_manifest.py lines 599-657): the
optional fields are the dict keys added only at the corresponding depth. -/
structure ServerEntry where
  server : String
  match_score : ℚ
  categories : Option (List String)
  matched_categories : Option (List String)
  tools : Option Nat
  matched_tools : Option (List ToolMatch)

/-- `results["matches"]` (api_manifest.py lines 575-579); the Lean field is
named `matchesInfo` because `matches` is reserved. -/
structure SearchMatches where
  servers : List String
  categories : List String
  tools : List String

/-- The dictionary returned by `ManifestQuery.search` on a built manifest. -/
structure SearchResults where
  query : String
  namespace_ : Option String
  max_depth : Nat
  results : List ServerEntry
  matchesInfo : SearchMatches
  total_matches : Nat

/-- Outcome of `search`: the not-built early return of api_manifest.py lines
566-568 or the full results dictionary. -/
inductive SearchOutcome
  | notBuilt
  | results (r : SearchResults)

/-- Python truthiness of the optional list stored under a dict key:
`server_entry.get(k)` is truthy iff the key is present and the list is
non-empty. -/
def entry_should_include (e : ServerEntry) (show_all : Bool) : Bool :=
  decide (min_similarity ≤ e.match_score) ||
    !((e.matched_categories.getD []).isEmpty) ||
    !((e.matched_tools.getD []).isEmpty) ||
    show_all

/-- The body of the `for server_name in servers` loop of `search`
(api_manifest.py lines 589-668): returns the entry to append (if included)
and the contributions to `matches.servers`, `matches.categories`,
`matches.tools`. -/
def search_process_server (ratio : String → String → ℚ) (reg : RegistryState)
    (m : ManifestData) (namespace_ : Option String) (query_lower : String)
    (max_depth : Nat) (show_all : Bool) (server_name : String) :
    Except String (Option ServerEntry × List String × List String × List String) :=
  let server_match_score :=
    if show_all then 1
    else fuzzy_match ratio query_lower (pyLower server_name) min_similarity
  if decide (min_similarity ≤ server_match_score) || decide (1 ≤ max_depth) || show_all then
    let entry0 : ServerEntry :=
      { server := server_name, match_score := server_match_score,
        categories := none, matched_categories := none, tools := none, matched_tools := none }
    let match_servers := if min_similarity ≤ server_match_score then [server_name] else []
    let step1 :=
      if 1 ≤ max_depth then
        let categories := ((alistGet m.servers server_name).map (·.categories)).getD []
        let matched_categories := categories.filter (fun cat =>
          decide (min_similarity ≤ fuzzy_match ratio query_lower (pyLower cat) min_similarity))
        ({ entry0 with
            categories := some categories,
            matched_categories := some matched_categories },
          matched_categories.map (fun cat => server_name ++ ":" ++ cat))
      else (entry0, [])
    let entry1 := step1.1
    let match_cats := step1.2
    if 2 ≤ max_depth then
      match get_tools reg server_name namespace_ with
      | .error e => .error e
      | .ok tools =>
        let matched_tools := tools.filterMap (fun tool =>
          let name_score := fuzzy_match ratio query_lower (pyLower tool.name) min_similarity
          let desc_score := fuzzy_match ratio query_lower (pyLower tool.description)
            (min_similarity * mkRat 7 10)
          let best_score := max name_score desc_score
          if min_similarity ≤ best_score then
            some { name := tool.name, match_score := best_score,
                   description := if 3 ≤ max_depth then some tool.description else none,
                   inputSchema := if 3 ≤ max_depth then some tool.inputSchema else none }
          else none)
        let entry2 := { entry1 with
            tools := some tools.length,
            matched_tools := some matched_tools }
        let match_tools := matched_tools.map (fun t => server_name ++ ":" ++ t.name)
        .ok (if entry_should_include entry2 show_all then some entry2 else none,
          match_servers, match_cats, match_tools)
    else
      .ok (if entry_should_include entry1 show_all then some entry1 else none,
        match_servers, match_cats, [])
  else .ok (none, [], [], [])

/-- The full server loop of `search`, concatenating entries and match
contributions in order. -/
def search_servers (ratio : String → String → ℚ) (reg : RegistryState)
    (m : ManifestData) (namespace_ : Option String) (query_lower : String)
    (max_depth : Nat) (show_all : Bool) :
    List String → Except String (List ServerEntry × List String × List String × List String)
  | [] => .ok ([], [], [], [])
  | s :: rest =>
    match search_process_server ratio reg m namespace_ query_lower max_depth show_all s with
    | .error e => .error e
    | .ok (oe, ms, mc, mt) =>
      match search_servers ratio reg m namespace_ query_lower max_depth show_all rest with
      | .error e => .error e
      | .ok (es, ms2, mc2, mt2) => .ok (oe.toList ++ es, ms ++ ms2, mc ++ mc2, mt ++ mt2)

/-- `ManifestQuery.search` (api_manifest.py lines 545-673). -/
def search (ratio : String → String → ℚ) (reg : RegistryState) (query : String)
    (namespace_ : Option String) (max_depth : Nat) : Except String SearchOutcome :=
  match reg.manifest with
  | none => .ok .notBuilt
  | some m =>
    match get_servers reg namespace_ with
    | .error e => .error e
    | .ok servers =>
      let query_lower := if query.isEmpty then "" else pyLower query
      let show_all := decide (1 ≤ max_depth) &&
        (query_lower.isEmpty || decide (query_lower.data.length ≤ 1))
      match search_servers ratio reg m namespace_ query_lower max_depth show_all servers with
      | .error e => .error e
      | .ok (entries, ms, mc, mt) =>
        .ok (.results {
          query := query, namespace_ := namespace_, max_depth := max_depth,
          results := entries,
          matchesInfo := { servers := ms, categories := mc, tools := mt },
          total_matches := ms.length + mc.length + mt.length })

/-! ## `api_manifest.py`: `EventHookManager` -/

/-- A registered hook callback: its `__name__` and its behaviour
(`Except.error` models a raised exception).  The source calls
`callback(data)` when data is not `None` and `callback()` otherwise; both
forms are folded into `fn` applied to the optional data. -/
structure SbCallback where
  name : String
  fn : Option JVal → Except String JVal

/-- One entry of `event_record["results"]` (api_manifest.py lines 769-780). -/
structure CallbackResult where
  callback : String
  status : String
  result : Option JVal
  error : Option String

/-- An event record (api_manifest.py lines 759-764). -/
structure EventRecord where
  event_type : String
  data : Option JVal
  timestamp : String
  results : List CallbackResult

/-- The state of an `EventHookManager` together with its registry. -/
structure EventHookState where
  hooks : List (String × List SbCallback)
  last_event : Option EventRecord
  event_history : List EventRecord
  registry : RegistryState

/-- `EventHookManager.VALID_EVENTS` (api_manifest.py line 711). -/
def VALID_EVENTS : List String := ["startup", "config_change", "server_health", "manual"]

/-- `EventHookManager._max_history` (api_manifest.py line 723). -/
def max_history : Nat := 100

/-- `CapabilityRegistry.invalidate_cache` (api_manifest.py lines 410-418):
discard the in-memory manifest and delete the cache file. -/
def invalidate_cache (reg : RegistryState) : RegistryState :=
  { reg with manifest := none, cachedManifest := none }

/-- `CapabilityRegistry.load_cache` (api_manifest.py lines 381-408): install
the cached manifest and namespaces when a fresh cache exists, otherwise
leave the registry unchanged. -/
def load_cache (reg : RegistryState) : RegistryState :=
  match reg.cachedManifest with
  | some (m, ns) => { reg with manifest := some m, namespaces := ns }
  | none => reg

/-- Python truthiness of `data.get(key)` for the string payloads of a
`server_health` event: present, a string, and non-empty.  (Non-string truthy
payloads would be written through unchanged by the source; the string case
is the one the `status` field can hold.) -/
def jTruthyStr (v : Option JVal) : Option String :=
  match v with
  | some (.str s) => if s.isEmpty then none else some s
  | _ => none

/-- The `server_health` arm of `EventHookManager._rebuild_manifest`
(api_manifest.py lines 812-822): patch the server record in place when the
manifest holds it. -/
def patch_server_status (reg : RegistryState) (data : Option JVal) : RegistryState :=
  match data with
  | some d =>
    match jTruthyStr (jGet d "server"), jTruthyStr (jGet d "status") with
    | some server_name, some status =>
      match reg.manifest with
      | some m =>
        if server_name ∈ m.servers.map Prod.fst then
          { reg with manifest := some { m with servers := m.servers.map (fun p =>
              if p.1 = server_name then (p.1, { p.2 with status := status }) else p) } }
        else reg
      | none => reg
    | _, _ => reg
  | none => reg

/-- `EventHookManager._rebuild_manifest` (api_manifest.py lines 799-833). -/
def rebuild_manifest (reg : RegistryState) (event_type : String) (data : Option JVal) :
    RegistryState :=
  if event_type = "config_change" then invalidate_cache reg
  else if event_type = "server_health" then patch_server_status reg data
  else if event_type = "startup" then load_cache reg
  else if event_type = "manual" then invalidate_cache reg
  else reg

/-- The dictionary returned by `EventHookManager.trigger`: the invalid-event
error dictionary of line 757 or the summary of lines 793-797. -/
inductive TriggerResult
  | invalid (error : String)
  | triggered (event_type : String) (hooks_executed : Nat) (timestamp : String)

/-- `EventHookManager.trigger` (api_manifest.py lines 743-797).  `now` is
the oracle for `datetime.now(...).isoformat()`.  Besides the returned
dictionary and the successor state, the list of names of the callbacks that
were actually invoked is returned, so that "no callback ran" is expressible. -/
def trigger (st : EventHookState) (now : String) (event_type : String) (data : Option JVal) :
    TriggerResult × EventHookState × List String :=
  if event_type ∉ VALID_EVENTS then
    (.invalid ("Invalid event type: " ++ event_type), st, [])
  else
    let callbacks := (alistGet st.hooks event_type).getD []
    let results := callbacks.map (fun cb =>
      match cb.fn data with
      | .ok r => { callback := cb.name, status := "success", result := some r, error := none }
      | .error e =>
        { callback := cb.name, status := "error", result := none, error := some e })
    let event_record : EventRecord :=
      { event_type := event_type, data := data, timestamp := now, results := results }
    let registry := rebuild_manifest st.registry event_type data
    let history0 := st.event_history ++ [event_record]
    let event_history := if max_history < history0.length then history0.drop 1 else history0
    (.triggered event_type results.length now,
      { hooks := st.hooks, last_event := some event_record,
        event_history := event_history, registry := registry },
      callbacks.map (·.name))

/-! ## `api_sandbox.py`: validator and executor -/

/-- `BLOCKED_IMPORTS` (api_sandbox.py lines 22-37). -/
def BLOCKED_IMPORTS : List String :=
  ["os", "sys", "subprocess", "socket", "http", "urllib", "requests",
   "shutil", "tempfile", "multiprocessing", "__import__", "builtins"]

/-- `BLOCKED_BUILTINS` (api_sandbox.py lines 39-49). -/
def BLOCKED_BUILTINS : List String :=
  ["eval", "exec", "compile", "open", "input", "__import__", "breakpoint"]

/-- `MAX_CODE_SIZE_BYTES` (api_sandbox.py line 51). -/
def MAX_CODE_SIZE_BYTES : Nat := 50 * 1024

/-- A node of the walked parse tree (`ast.walk` order), as far as the two
deny-list checks inspect it: an `ast.Import` with its alias names, an
`ast.ImportFrom` with its optional module, a call whose `func` is a bare
`ast.Name`, or anything else. -/
inductive AstNode
  | importNode (names : List String)
  | importFromNode (module : Option String)
  | callNameNode (id : String)
  | otherNode
deriving DecidableEq

/-- Python `name.split(".")[0]`. -/
def rootModule (name : String) : String :=
  String.mk (name.data.takeWhile (fun c => !(c = '.')))

/-- `SandboxExecutor._check_blocked_imports` (api_sandbox.py lines 389-411):
first offending import wins; the full dotted name is reported. -/
def check_blocked_imports (tree : List AstNode) : Option String :=
  tree.findSome? (fun node =>
    match node with
    | .importNode names =>
      names.findSome? (fun nm =>
        if rootModule nm ∈ BLOCKED_IMPORTS then some nm else none)
    | .importFromNode (some module) =>
      if rootModule module ∈ BLOCKED_IMPORTS then some module else none
    | _ => none)

/-- `SandboxExecutor._check_blocked_builtins` (api_sandbox.py lines 413-428). -/
def check_blocked_builtins (tree : List AstNode) : Option String :=
  tree.findSome? (fun node =>
    match node with
    | .callNameNode id => if id ∈ BLOCKED_BUILTINS then some id else none
    | _ => none)

/-- The string-tracking state of the per-line comment stripper. -/
inductive StrState
  | noStr
  | inSingle (q : Char)
  | inTriple (q : Char)
deriving DecidableEq

/-- The character loop of `SandboxExecutor._strip_comments` for one line
(api_sandbox.py lines 348-385).  `prev` is `line[i-1]` (`none` at `i = 0`);
the `i + 2 < len(line)` guard of the triple-quote opening is the
two-more-characters pattern, and an unmatched `#` outside a string breaks
the loop, dropping the rest of the line. -/
def stripLineChars : List Char → StrState → Option Char → List Char
  | [], _, _ => []
  | c :: rest, st, prev =>
    match st with
    | .noStr =>
      if c = '"' || c = '\'' then
        match rest with
        | c2 :: c3 :: rest2 =>
          if c2 = c && c3 = c then
            c :: c :: c :: stripLineChars rest2 (.inTriple c) (some c)
          else c :: stripLineChars (c2 :: c3 :: rest2) (.inSingle c) (some c)
        | r => c :: stripLineChars r (.inSingle c) (some c)
      else if c = '#' then []
      else c :: stripLineChars rest .noStr (some c)
    | .inSingle q =>
      if c = q && !(prev = some '\\') then c :: stripLineChars rest .noStr (some c)
      else c :: stripLineChars rest (.inSingle q) (some c)
    | .inTriple q =>
      match rest with
      | c2 :: c3 :: rest2 =>
        if c = q && c2 = q && c3 = q then
          c :: c :: c :: stripLineChars rest2 .noStr (some c)
        else c :: stripLineChars (c2 :: c3 :: rest2) (.inTriple q) (some c)
      | r => c :: stripLineChars r (.inTriple q) (some c)
termination_by structural l => l

/-- `SandboxExecutor._strip_comments` (api_sandbox.py lines 336-387): split
into lines, strip each line with a fresh string state, rejoin. -/
def strip_comments (code : String) : String :=
  String.mk (joinNl ((splitOnNl code.data).map (fun l => stripLineChars l .noStr none)))

/-- `SandboxExecutor.validate_code` (api_sandbox.py lines 299-334).
`normalize` is the `unicodedata.normalize("NFKC", ·)` oracle and `parse` the
`ast.parse` oracle returning the walked node list (`Except.error` carries
the `SyntaxError` text). -/
def validate_code (normalize : String → String) (parse : String → Except String (List AstNode))
    (code : String) : Bool × String :=
  if MAX_CODE_SIZE_BYTES < code.utf8ByteSize then
    (false, "Code exceeds maximum size of 51200 bytes")
  else
    let normalized := normalize code
    let code_for_analysis := strip_comments normalized
    match parse code_for_analysis with
    | .error e => (false, "Syntax error: " ++ e)
    | .ok tree =>
      match check_blocked_imports tree with
      | some blocked => (false, "Blocked import detected: " ++ blocked)
      | none =>
        match check_blocked_builtins tree with
        | some blocked_builtin => (false, "Blocked builtin detected: " ++ blocked_builtin)
        | none => (true, "")

/-- Outcome of `SandboxExecutor._run_uv_subprocess` (api_sandbox.py lines
722-767) as observed by `execute`: normal completion with captured stdout, a
`subprocess.TimeoutExpired`, a `subprocess.CalledProcessError` with return
code and stderr, or any other exception with its text. -/
inductive SubprocessOutcome
  | completed (stdout : String)
  | timedOut
  | exited (returncode : Int) (stderr : String)
  | failed (msg : String)

/-- The dictionary returned by `SandboxExecutor.execute`.  `traceback` holds
a JSON value because the success path copies `result.get("traceback")`
straight out of the parsed subprocess output. -/
structure ExecuteResult where
  status : String
  result : Option JVal
  traceback : Option JVal
  execution_time_ms : Nat

/-- Python `timeout_secs or self._default_timeout_secs` (api_sandbox.py line
448): `None` and `0` are falsy. -/
def pyOrNat (o : Option Nat) (d : Nat) : Nat :=
  match o with
  | some t => if t = 0 then d else t
  | none => d

/-- `SandboxExecutor.execute` (api_sandbox.py lines 430-519).  The wrapped
code, environment and subprocess are behind the `subprocess_outcome` and
`jsonLoads` oracles; `elapsed_ms` is the measured wall-clock time.  The
second component records whether `_run_uv_subprocess` was reached: the
validation-failure branch returns before any subprocess is launched. -/
def execute (normalize : String → String) (parse : String → Except String (List AstNode))
    (jsonLoads : String → Except String JVal) (subprocess_outcome : SubprocessOutcome)
    (elapsed_ms : Nat) (default_timeout_secs : Nat)
    (code : String) (namespace_ : String) (timeout_secs : Option Nat) :
    ExecuteResult × Bool :=
  let timeout := pyOrNat timeout_secs default_timeout_secs
  let v := validate_code normalize parse code
  if !v.1 then
    ({ status := "error", result := none,
       traceback := some (.str ("Validation error: " ++ v.2)),
       execution_time_ms := 0 }, false)
  else
    match subprocess_outcome with
    | .completed stdout =>
      match jsonLoads stdout with
      | .ok parsed =>
        ({ status := "success", result := jGet parsed "result",
           traceback := jGet parsed "traceback", execution_time_ms := elapsed_ms }, true)
      | .error e =>
        ({ status := "error", result := none,
           traceback := some (.str ("Failed to parse result: " ++ e ++ "\nOutput: "
             ++ String.mk (stdout.data.take 1000))),
           execution_time_ms := elapsed_ms }, true)
    | .timedOut =>
      ({ status := "error", result := none,
         traceback := some (.str ("Execution timed out after " ++ toString timeout
           ++ " seconds")),
         execution_time_ms := elapsed_ms }, true)
    | .exited rc stderr =>
      ({ status := "error", result := none,
         traceback := some (.str (if stderr.isEmpty
           then "Process exited with code " ++ toString rc else stderr)),
         execution_time_ms := elapsed_ms }, true)
    | .failed msg =>
      ({ status := "error", result := none,
         traceback := some (.str msg), execution_time_ms := elapsed_ms }, true)

/-! ## Concrete fixtures used by witnesses and counterexamples -/

/-- A concrete `ast.parse` oracle: the walked trees of the two programs of
the validation scenario (`import os` then an assignment; a blank line then
an assignment).  NFKC is the identity on these ASCII programs, so the
`normalize` oracle is `id` there. -/
def parse0 : String → Except String (List AstNode) :=
  fun s =>
    if s = "import os\nx=1" then .ok [.importNode ["os"], .otherNode]
    else if s = "\nx=1" then .ok [.otherNode]
    else .error "invalid syntax"

/-- A concrete `json.loads` oracle for the stream reader: only the object
literal parses. -/
def jl0 : String → Option Nat :=
  fun s => if s = "\x7b\x7d" then some 1 else none

/-- A two-namespace table: an isolated namespace and a plain one. -/
def ns0 : NsTable :=
  [("iso", .objDef ["s1"] [] true), ("pub", .listDef ["s2"])]

/-- A diamond-shaped `extends` graph: `a` extends `b` and `c`, both of which
extend `d`. -/
def tblDiamond : NsTable :=
  [("a", .objDef [] ["b", "c"] false),
   ("b", .objDef [] ["d"] false),
   ("c", .objDef [] ["d"] false),
   ("d", .objDef ["s1"] [] false)]

/-- A cyclic `extends` graph: `a` and `b` extend each other. -/
def tblCycle : NsTable :=
  [("a", .objDef ["s1"] ["b"] false),
   ("b", .objDef ["s2"] ["a"] false)]

/-- A one-server registry whose manifest is built. -/
def reg0 : RegistryState :=
  { manifest := some
      { version := "2.0", generated_at := "t",
        servers := [("echo", { tool_count := 2, categories := [], status := "active" })],
        tools_by_server := [("echo", [])],
        tool_count := 2, server_count := 1 },
    namespaces := [], cachedManifest := none }

/-- A `SequenceMatcher.ratio` oracle that never matches. -/
def ratio0 : String → String → ℚ := fun _ _ => 0

/-- An event-hook manager with no hooks over an empty registry. -/
def st0 : EventHookState :=
  { hooks := [], last_event := none, event_history := [],
    registry := { manifest := none, namespaces := [], cachedManifest := none } }

/-! ## Theorems -/

/-- Claim C1: the restart counter of a `ServerProcess` never exceeds the
bound of 3: `restart_if_needed` increments the counter and re-runs the start
protocol only when the counter is below 3, refuses (returning failure and
leaving the child dead) once 3 restart attempts have been recorded, and a
successful start resets the counter to zero. -/
theorem claim1_restart_counter_bounded (ok : Bool) (s : ServerState)
    (h : s.restart_count ≤ max_restarts) :
    (ServerProcess.restart_if_needed ok s).2.restart_count ≤ max_restarts ∧
    (s.running = false → max_restarts ≤ s.restart_count →
      ServerProcess.restart_if_needed ok s = (false, s)) ∧
    (s.running = false → s.restart_count < max_restarts →
      ServerProcess.restart_if_needed ok s
        = ServerProcess.start ok { s with restart_count := s.restart_count + 1 }) ∧
    (∀ s2 : ServerState, (ServerProcess.start true s2).2.restart_count = 0 ∧
      (ServerProcess.start true s2).2.running = true) := by
  refine ⟨?_, ?_, ?_, ?_⟩
  · unfold ServerProcess.restart_if_needed ServerProcess.start
    split_ifs <;> simp_all <;> omega
  · intro hrun hge
    unfold ServerProcess.restart_if_needed
    rw [hrun]
    simp [hge]
  · intro hrun hlt
    unfold ServerProcess.restart_if_needed
    rw [hrun]
    simp [Nat.not_le.mpr hlt]
  · intro s2
    simp [ServerProcess.start]

/-- Witness for C1 at the boundary: a dead child with 3 recorded restarts is
refused even when a start would succeed. -/
theorem claim1_restart_counter_bounded_witness :
    ServerProcess.restart_if_needed true ⟨3, false⟩ = (false, ⟨3, false⟩) := by
  have h := claim1_restart_counter_bounded true ⟨3, false⟩ (by decide)
  exact h.2.1 rfl (by decide)

theorem server_config_changed_self (c : ServerCfg) : server_config_changed c c = false := by
  simp [server_config_changed]

/-- Claim C3: hot-reload is idempotent: diffing a configuration against
itself yields empty `to_remove`, `to_add` and `to_update` sets, so the
second `reload_config` stops, starts and removes no child process. -/
theorem claim3_reload_idempotent (c : List ServerCfg) :
    reload_diff c c = ([], [], []) ∧ reload_actions c c = [] := by
  have hdiff : reload_diff c c = ([], [], []) := by
    unfold reload_diff
    refine congrArg₂ Prod.mk ?_ (congrArg₂ Prod.mk ?_ ?_)
    · exact List.filter_eq_nil_iff.mpr (fun a ha => by simp [ha])
    · exact List.filter_eq_nil_iff.mpr (fun a ha => by simp [ha])
    · apply List.filter_eq_nil_iff.mpr
      intro a _
      cases hl : lookupCfg c a <;> simp [server_config_changed_self]
  refine ⟨hdiff, ?_⟩
  unfold reload_actions
  rw [hdiff]
  rfl

/-- Claim C4: whenever the validator rejects a code string with message `m`,
`execute` returns exactly the error dictionary with `result` null,
`traceback` `"Validation error: " ++ m` and `execution_time_ms` zero, and
the sandbox subprocess is never launched (second component `false`). -/
theorem claim4_execute_validation_error
    (normalize : String → String) (parse : String → Except String (List AstNode))
    (jsonLoads : String → Except String JVal) (sub : SubprocessOutcome)
    (elapsed_ms default_timeout_secs : Nat) (K ns : String) (timeout_secs : Option Nat)
    (m : String)
    (h : validate_code normalize parse K = (false, m)) :
    execute normalize parse jsonLoads sub elapsed_ms default_timeout_secs K ns timeout_secs
      = ({ status := "error", result := none,
           traceback := some (.str ("Validation error: " ++ m)),
           execution_time_ms := 0 }, false) := by
  unfold execute
  rw [h]
  rfl

/-- Witness for C4: `import os` is rejected by the validator and `execute`
returns the validation-error dictionary without launching a subprocess. -/
theorem claim4_execute_validation_error_witness :
    execute id parse0 (fun _ => .error "e") .timedOut 7 30 "import os\nx=1" "ns" none
      = ({ status := "error", result := none,
           traceback := some (.str ("Validation error: " ++ "Blocked import detected: os")),
           execution_time_ms := 0 }, false) :=
  claim4_execute_validation_error id parse0 (fun _ => .error "e") .timedOut 7 30
    "import os\nx=1" "ns" none "Blocked import detected: os" (by decide)

/-- Claim C10: triggering an event whose type is outside
`\x7bstartup, config_change, server_health, manual\x7d` is atomic and
non-fatal: `trigger` returns the error dictionary (no exception is raised —
the embedding is a total function), executes no registered callback, appends
nothing to the event history, and leaves the whole state, including the
registry manifest, unchanged. -/
theorem claim10_invalid_event_trigger (st : EventHookState) (now evt : String)
    (data : Option JVal) (h : evt ∉ VALID_EVENTS) :
    trigger st now evt data = (.invalid ("Invalid event type: " ++ evt), st, []) := by
  unfold trigger
  rw [if_pos h]

/-- Witness for C10 at the concrete invalid event type `"bogus"`. -/
theorem claim10_invalid_event_trigger_witness :
    trigger st0 "t0" "bogus" none = (.invalid ("Invalid event type: " ++ "bogus"), st0, []) :=
  claim10_invalid_event_trigger st0 "t0" "bogus" none (by decide)

/-- Counterexample to claim C8 as stated: `S = "a_"` contains no `"__"`,
yet prefixing with any tool name `T` makes the first `"__"` of
`S ++ "__" ++ T` start inside `S`, so parsing returns `("a", "_b")` rather
than `("a_", "b")`. -/
theorem claim8_roundtrip_counterexample :
    listInfix "__".data "a_".data = false ∧
    prefix_tool_name "a_" "b" = "a___b" ∧
    parse_prefixed_tool_name (prefix_tool_name "a_" "b") = some ("a", "_b") ∧
    parse_prefixed_tool_name (prefix_tool_name "a_" "b") ≠ some ("a_", "b") := by
  refine ⟨by decide, by decide, by decide, by decide⟩

theorem splitOnFirst_underscores (s t : List Char)
    (h1 : listInfix ['_', '_'] s = false)
    (h2 : s.getLast? ≠ some '_') :
    splitOnFirst ['_', '_'] (s ++ '_' :: '_' :: t) = some (s, t) := by
  induction s with
  | nil => simp [splitOnFirst, List.isPrefixOf]
  | cons c s ih =>
    cases s with
    | nil =>
      have hc : ¬(c = '_') := by
        intro hc
        exact h2 (by simp [hc])
      have hb : (('_' : Char) == c) = false := beq_eq_false_iff_ne.mpr (fun h => hc h.symm)
      have hpre : List.isPrefixOf ['_', '_'] (c :: '_' :: '_' :: t) = false := by
        simp [List.isPrefixOf, hb]
      show splitOnFirst ['_', '_'] (c :: '_' :: '_' :: t) = some ([c], t)
      rw [splitOnFirst, if_neg (by simp [hpre])]
      rw [splitOnFirst, if_pos (by simp [List.isPrefixOf])]
      rfl
    | cons d s' =>
      have hinf : listInfix ['_', '_'] (d :: s') = false := by
        have h1' := h1
        unfold listInfix at h1'
        exact (Bool.or_eq_false_iff.mp h1').2
      have hpre0 : List.isPrefixOf ['_', '_'] (c :: d :: s') = false := by
        have h1' := h1
        unfold listInfix at h1'
        exact (Bool.or_eq_false_iff.mp h1').1
      have hcd : ¬(c = '_' ∧ d = '_') := by
        intro hcd0
        simp [List.isPrefixOf, hcd0.1, hcd0.2] at hpre0
      have hlast : (d :: s').getLast? ≠ some '_' := by
        rwa [List.getLast?_cons_cons] at h2
      have hpre : List.isPrefixOf ['_', '_'] (c :: d :: (s' ++ '_' :: '_' :: t)) = false := by
        simp only [List.isPrefixOf]
        cases hc : (('_' : Char) == c) with
        | false => simp
        | true =>
          simp only [Bool.true_and]
          cases hd : (('_' : Char) == d) with
          | false => simp
          | true =>
            exact absurd ⟨(beq_iff_eq.mp hc).symm, (beq_iff_eq.mp hd).symm⟩ hcd
      have goal' := ih hinf hlast
      simp only [List.cons_append] at goal' ⊢
      rw [splitOnFirst, if_neg (by simp [hpre]), goal']
      rfl

/-- Claim C8, amended: the round-trip `parse_prefixed(prefix(S, T)) = (S, T)`
holds for all `S` that contain no `"__"` **and do not end in `'_'`** (the
counterexample above forces the second condition: an `S` ending in `'_'`
shifts the first `"__"` of the prefixed name one position left). -/
theorem claim8_prefix_roundtrip (S T : String)
    (h1 : listInfix "__".data S.data = false)
    (h2 : S.data.getLast? ≠ some '_') :
    parse_prefixed_tool_name (prefix_tool_name S T) = some (S, T) := by
  unfold parse_prefixed_tool_name prefix_tool_name
  have hdata : (S ++ "__" ++ T).data = S.data ++ '_' :: '_' :: T.data := by
    simp [String.data_append]
  rw [hdata, splitOnFirst_underscores S.data T.data h1 h2]

/-- Witness for the amended C8 at `S = "math"`, `T = "add"`. -/
theorem claim8_prefix_roundtrip_witness :
    parse_prefixed_tool_name (prefix_tool_name "math" "add") = some ("math", "add") :=
  claim8_prefix_roundtrip "math" "add" (by decide) (by decide)

theorem check_blocked_imports_blocked {tree : List AstNode} {m : String}
    (h : check_blocked_imports tree = some m) : rootModule m ∈ BLOCKED_IMPORTS := by
  unfold check_blocked_imports at h
  obtain ⟨node, hmem, hf⟩ := List.exists_of_findSome?_eq_some h
  cases node with
  | importNode names =>
    simp only at hf
    obtain ⟨nm, hnm, hif⟩ := List.exists_of_findSome?_eq_some hf
    by_cases hb : rootModule nm ∈ BLOCKED_IMPORTS
    · rw [if_pos hb] at hif
      cases hif
      exact hb
    · rw [if_neg hb] at hif
      cases hif
  | importFromNode mod =>
    cases mod with
    | none => simp at hf
    | some module =>
      simp only at hf
      by_cases hb : rootModule module ∈ BLOCKED_IMPORTS
      · rw [if_pos hb] at hf
        cases hf
        exact hb
      · rw [if_neg hb] at hf
        cases hf
  | callNameNode id => simp at hf
  | otherNode => simp at hf

theorem check_blocked_imports_of_mem {tree : List AstNode}
    (h : ∃ node ∈ tree,
        (∃ names nm, node = .importNode names ∧ nm ∈ names ∧
            rootModule nm ∈ BLOCKED_IMPORTS) ∨
        (∃ module, node = .importFromNode (some module) ∧
            rootModule module ∈ BLOCKED_IMPORTS)) :
    ∃ m, check_blocked_imports tree = some m := by
  by_contra hn
  push_neg at hn
  have hnone : check_blocked_imports tree = none := by
    cases hc : check_blocked_imports tree with
    | none => rfl
    | some m => exact absurd hc (hn m)
  unfold check_blocked_imports at hnone
  rw [List.findSome?_eq_none_iff] at hnone
  obtain ⟨node, hmem, hbad⟩ := h
  have hnode := hnone node hmem
  rcases hbad with ⟨names, nm, rfl, hnm, hb⟩ | ⟨module, rfl, hb⟩
  · simp only at hnode
    rw [List.findSome?_eq_none_iff] at hnode
    have := hnode nm hnm
    rw [if_pos hb] at this
    cases this
  · simp only at hnode
    rw [if_pos hb] at hnode
    cases hnode

/-- Claim C5: `validate_code` rejects, naming the offending module, whenever
the walked parse tree of the comment-stripped, NFKC-normalised code contains
an `import X.Y` or `from X.Y import Z` whose first dotted segment is in the
deny set (given that the code passes the size gate that runs first); an
occurrence inside a `#` comment is stripped before analysis, so
`validate("import os\nx=1")` is rejected naming `os` while
`validate("# import os\nx=1")` returns `(true, "")`. -/
theorem claim5_validate_code_blocked_imports :
    (∀ (normalize : String → String) (parse : String → Except String (List AstNode))
       (code : String) (tree : List AstNode) (m : String),
       code.utf8ByteSize ≤ MAX_CODE_SIZE_BYTES →
       parse (strip_comments (normalize code)) = .ok tree →
       check_blocked_imports tree = some m →
       validate_code normalize parse code = (false, "Blocked import detected: " ++ m) ∧
         rootModule m ∈ BLOCKED_IMPORTS) ∧
    (∀ tree : List AstNode,
       (∃ node ∈ tree,
          (∃ names nm, node = .importNode names ∧ nm ∈ names ∧
              rootModule nm ∈ BLOCKED_IMPORTS) ∨
          (∃ module, node = .importFromNode (some module) ∧
              rootModule module ∈ BLOCKED_IMPORTS)) →
       ∃ m, check_blocked_imports tree = some m ∧ rootModule m ∈ BLOCKED_IMPORTS) ∧
    strip_comments "import os\nx=1" = "import os\nx=1" ∧
    strip_comments "# import os\nx=1" = "\nx=1" ∧
    (∀ parse : String → Except String (List AstNode),
       parse "import os\nx=1" = .ok [.importNode ["os"], .otherNode] →
       validate_code id parse "import os\nx=1" = (false, "Blocked import detected: os")) ∧
    (∀ parse : String → Except String (List AstNode),
       parse "\nx=1" = .ok [.otherNode] →
       validate_code id parse "# import os\nx=1" = (true, "")) := by
  refine ⟨?_, ?_, by decide, by decide, ?_, ?_⟩
  · intro normalize parse code tree m hsize hparse hcbi
    refine ⟨?_, check_blocked_imports_blocked hcbi⟩
    unfold validate_code
    rw [if_neg (Nat.not_lt.mpr hsize)]
    dsimp only
    rw [hparse]
    dsimp only
    rw [hcbi]
  · intro tree hex
    obtain ⟨m, hm⟩ := check_blocked_imports_of_mem hex
    exact ⟨m, hm, check_blocked_imports_blocked hm⟩
  · intro parse hp
    have heq : validate_code id parse "import os\nx=1"
        = match parse "import os\nx=1" with
          | .error e => (false, "Syntax error: " ++ e)
          | .ok tree =>
            match check_blocked_imports tree with
            | some blocked => (false, "Blocked import detected: " ++ blocked)
            | none =>
              match check_blocked_builtins tree with
              | some bb => (false, "Blocked builtin detected: " ++ bb)
              | none => (true, "") := rfl
    rw [heq, hp]
    rfl
  · intro parse hp
    have heq : validate_code id parse "# import os\nx=1"
        = match parse "\nx=1" with
          | .error e => (false, "Syntax error: " ++ e)
          | .ok tree =>
            match check_blocked_imports tree with
            | some blocked => (false, "Blocked import detected: " ++ blocked)
            | none =>
              match check_blocked_builtins tree with
              | some bb => (false, "Blocked builtin detected: " ++ bb)
              | none => (true, "") := rfl
    rw [heq, hp]
    rfl

/-- Witness for C5: the two scenario programs evaluated under the concrete
parse oracle. -/
theorem claim5_validate_code_blocked_imports_witness :
    validate_code id parse0 "import os\nx=1" = (false, "Blocked import detected: os") ∧
    validate_code id parse0 "# import os\nx=1" = (true, "") :=
  ⟨claim5_validate_code_blocked_imports.2.2.2.2.1 parse0 rfl,
   claim5_validate_code_blocked_imports.2.2.2.2.2 parse0 rfl⟩

theorem validate_groups_refs_ok_all {g : String} {ns : NsTable} {refs : List String}
    (h : validate_groups_refs g ns refs = .ok ()) :
    ∀ r ∈ refs, validate_groups_ref g ns r = .ok () := by
  induction refs with
  | nil => intro r hr; cases hr
  | cons a rest ih =>
    intro r hr
    cases ha : validate_groups_ref g ns a with
    | error e =>
      simp only [validate_groups_refs, ha] at h
      exact Except.noConfusion h
    | ok u =>
      simp only [validate_groups_refs, ha] at h
      cases hr with
      | head => cases u; exact ha
      | tail _ hr' => exact ih h r hr'

theorem validate_groups_refs_error_of_bad {g : String} {ns : NsTable} {refs : List String}
    {r : String} (hr : r ∈ refs) (hbad : validate_groups_ref g ns r ≠ .ok ()) :
    ∃ e, validate_groups_refs g ns refs = .error e := by
  cases h : validate_groups_refs g ns refs with
  | ok u =>
    cases u
    exact absurd (validate_groups_refs_ok_all h r hr) hbad
  | error e => exact ⟨e, rfl⟩

theorem validate_groups_refs_ok {g : String} {ns : NsTable} {refs : List String}
    (h : ∀ r ∈ refs, ∃ d,
        lookupNs ns (if pyStartsWith "!" r then strDropOne r else r) = some d ∧
        (nsIsolated d = true → pyStartsWith "!" r = true)) :
    validate_groups_refs g ns refs = .ok () := by
  induction refs with
  | nil => rfl
  | cons a rest ih =>
    obtain ⟨d, hd, hiso⟩ := h a (by simp)
    have ha : validate_groups_ref g ns a = .ok () := by
      unfold validate_groups_ref
      dsimp only
      rw [hd]
      cases hi : nsIsolated d with
      | false => simp [hi]
      | true => simp [hi, hiso hi]
    simp only [validate_groups_refs, ha]
    exact ih (fun r hr => h r (List.mem_cons_of_mem _ hr))

theorem validate_group_loop_false (g : String) (ns : NsTable) (refs : List String) :
    ∀ w, (validate_group_loop g ns refs false w).1 = false := by
  induction refs with
  | nil => intro w; rfl
  | cons a rest ih =>
    intro w
    unfold validate_group_loop
    dsimp only
    cases hl : lookupNs ns (if pyStartsWith "!" a = true then strDropOne a else a) with
    | none => exact ih _
    | some d =>
      dsimp only
      cases h1 : (nsIsolated d && !pyStartsWith "!" a) with
      | true => rw [if_pos rfl]; exact ih _
      | false =>
        rw [if_neg (by simp [h1])]
        cases h2 : (nsIsolated d && pyStartsWith "!" a) with
        | true => rw [if_pos rfl]; exact ih _
        | false => rw [if_neg (by simp [h2])]; exact ih _

theorem validate_group_loop_bad {g : String} {ns : NsTable} {refs : List String}
    {r : String} {d : NsDef} (hr : r ∈ refs)
    (hf : pyStartsWith "!" r = false) (hl : lookupNs ns r = some d)
    (hiso : nsIsolated d = true) :
    ∀ valid w, (validate_group_loop g ns refs valid w).1 = false := by
  induction refs with
  | nil => cases hr
  | cons a rest ih =>
    intro valid w
    by_cases hra : a = r
    · subst hra
      unfold validate_group_loop
      dsimp only
      rw [hf]
      simp only [Bool.false_eq_true, if_false]
      rw [hl]
      simp only [hiso, Bool.not_false, hf, Bool.and_true, if_true]
      exact validate_group_loop_false g ns rest _
    · have hr' : r ∈ rest := by
        cases hr with
        | head => exact absurd rfl hra
        | tail _ h => exact h
      unfold validate_group_loop
      dsimp only
      cases hla : lookupNs ns (if pyStartsWith "!" a = true then strDropOne a else a) with
      | none => exact ih hr' _ _
      | some da =>
        dsimp only
        cases h1 : (nsIsolated da && !pyStartsWith "!" a) with
        | true => rw [if_pos rfl]; exact ih hr' _ _
        | false =>
          rw [if_neg (by simp [h1])]
          cases h2 : (nsIsolated da && pyStartsWith "!" a) with
          | true => rw [if_pos rfl]; exact ih hr' _ _
          | false => rw [if_neg (by simp [h2])]; exact ih hr' _ _

theorem validate_group_loop_good {g : String} {ns : NsTable} {refs : List String}
    (h : ∀ r ∈ refs, ∃ d,
        lookupNs ns (if pyStartsWith "!" r then strDropOne r else r) = some d ∧
        (nsIsolated d = true → pyStartsWith "!" r = true)) :
    ∀ valid w, (validate_group_loop g ns refs valid w).1 = valid := by
  induction refs with
  | nil => intro valid w; rfl
  | cons a rest ih =>
    intro valid w
    obtain ⟨d, hd, hiso⟩ := h a (by simp)
    have ih' := ih (fun r hr => h r (List.mem_cons_of_mem _ hr))
    unfold validate_group_loop
    dsimp only
    rw [hd]
    dsimp only
    cases h1 : (nsIsolated d && !pyStartsWith "!" a) with
    | true =>
      exfalso
      have hi : nsIsolated d = true := by
        cases hnd : nsIsolated d with
        | true => rfl
        | false => rw [hnd] at h1; simp at h1
      rw [hi, hiso hi] at h1
      simp at h1
    | false =>
      rw [if_neg (by simp [h1])]
      cases h2 : (nsIsolated d && pyStartsWith "!" a) with
      | true => rw [if_pos rfl]; exact ih' _ _
      | false => rw [if_neg (by simp [h2])]; exact ih' _ _

/-- Claim C7: a group reference to an isolated namespace without the `!`
force-include mark is rejected: `validate_groups` raises a configuration
error and `validate_group` marks the group invalid; the same reference
written with `!` is accepted (at most a warning is recorded). -/
theorem claim7_isolated_group_references :
    (∀ (gname : String) (refs : List String) (ns : NsTable) (r : String) (d : NsDef),
       r ∈ refs → pyStartsWith "!" r = false → lookupNs ns r = some d →
       nsIsolated d = true →
       ∃ e, validate_groups [(gname, refs)] ns = .error e) ∧
    (∀ (gname : String) (refs : List String) (ns : NsTable),
       (∀ r ∈ refs, ∃ d,
          lookupNs ns (if pyStartsWith "!" r then strDropOne r else r) = some d ∧
          (nsIsolated d = true → pyStartsWith "!" r = true)) →
       validate_groups [(gname, refs)] ns = .ok ()) ∧
    (∀ (gname : String) (refs : List String) (ns : NsTable) (r : String) (d : NsDef),
       r ∈ refs → pyStartsWith "!" r = false → lookupNs ns r = some d →
       nsIsolated d = true →
       (validate_group gname refs ns).1 = false) ∧
    (∀ (gname : String) (refs : List String) (ns : NsTable),
       refs ≠ [] →
       (∀ r ∈ refs, ∃ d,
          lookupNs ns (if pyStartsWith "!" r then strDropOne r else r) = some d ∧
          (nsIsolated d = true → pyStartsWith "!" r = true)) →
       (validate_group gname refs ns).1 = true) := by
  refine ⟨?_, ?_, ?_, ?_⟩
  · intro gname refs ns r d hr hf hl hiso
    have hbad : validate_groups_ref gname ns r ≠ .ok () := by
      unfold validate_groups_ref
      dsimp only
      rw [hf]
      simp only [Bool.false_eq_true, if_false]
      rw [hl]
      simp [hiso, hf]
    obtain ⟨e, he⟩ := validate_groups_refs_error_of_bad hr hbad
    exact ⟨e, by simp [validate_groups, he]⟩
  · intro gname refs ns h
    simp [validate_groups, validate_groups_refs_ok h]
  · intro gname refs ns r d hr hf hl hiso
    have hne : refs.isEmpty = false := by
      cases refs with
      | nil => cases hr
      | cons a rest => rfl
    unfold validate_group
    rw [hne]
    simp only [Bool.false_eq_true, if_false]
    exact validate_group_loop_bad hr hf hl hiso true []
  · intro gname refs ns hne h
    have hne' : refs.isEmpty = false := by
      cases refs with
      | nil => exact absurd rfl hne
      | cons a rest => rfl
    unfold validate_group
    rw [hne']
    simp only [Bool.false_eq_true, if_false]
    exact validate_group_loop_good h true []

/-- Witness for C7 over the concrete table `ns0`: the unprefixed reference
to the isolated namespace is rejected by both validators, the prefixed
reference together with a plain one is accepted by both. -/
theorem claim7_isolated_group_references_witness :
    (∃ e, validate_groups [("g", ["iso"])] ns0 = .error e) ∧
    validate_groups [("g", ["!iso", "pub"])] ns0 = .ok () ∧
    (validate_group "g" ["iso"] ns0).1 = false ∧
    (validate_group "g" ["!iso", "pub"] ns0).1 = true := by
  have hgood : ∀ r ∈ ["!iso", "pub"], ∃ d,
      lookupNs ns0 (if pyStartsWith "!" r then strDropOne r else r) = some d ∧
      (nsIsolated d = true → pyStartsWith "!" r = true) := by
    intro r hr
    cases hr with
    | head => exact ⟨.objDef ["s1"] [] true, by decide, by decide⟩
    | tail _ h =>
      cases h with
      | head => exact ⟨.listDef ["s2"], by decide, by decide⟩
      | tail _ h2 => cases h2
  refine ⟨?_, ?_, ?_, ?_⟩
  · exact claim7_isolated_group_references.1 "g" ["iso"] ns0 "iso"
      (.objDef ["s1"] [] true) (by decide) (by decide) (by decide) (by decide)
  · exact claim7_isolated_group_references.2.1 "g" ["!iso", "pub"] ns0 hgood
  · exact claim7_isolated_group_references.2.2.1 "g" ["iso"] ns0 "iso"
      (.objDef ["s1"] [] true) (by decide) (by decide) (by decide) (by decide)
  · exact claim7_isolated_group_references.2.2.2 "g" ["!iso", "pub"] ns0
      (by decide) hgood

theorem readMessageLoop_noise {J : Type} (jsonLoads : String → Option J)
    (L : String) (rest : List String) (v : J)
    (hL : startsWithBracket (listStrip L.data) = true)
    (hLchunk : (listInfix "chunk".data ((listStrip L.data).map charLower) &&
        listInfix "limit".data ((listStrip L.data).map charLower)) = false)
    (hparse : jsonLoads (String.mk (listStrip L.data)) = some v) :
    ∀ (noise : List String) (k : Nat),
      (∀ l ∈ noise,
        listStrip l.data = [] ∨
        ((listInfix "chunk".data ((listStrip l.data).map charLower) &&
            listInfix "limit".data ((listStrip l.data).map charLower)) = false ∧
         startsWithBracket (listStrip l.data) = false)) →
      k + noise.length < 100 →
      readMessageLoop jsonLoads (noise ++ L :: rest) [] k = some v := by
  intro noise
  induction noise with
  | nil =>
    intro k hn hk
    have hne : (listStrip L.data).isEmpty = false := by
      cases hsd : listStrip L.data with
      | nil =>
        rw [hsd] at hL
        simp [startsWithBracket] at hL
      | cons c cs => rfl
    show readMessageLoop jsonLoads (L :: rest) [] k = some v
    unfold readMessageLoop
    rw [if_neg (by omega)]
    dsimp only
    rw [if_neg (by simp [hne]), if_neg (by simp [hLchunk]), if_neg (by simp [hL])]
    rw [if_pos (List.isEmpty_nil (α := Char)), hparse]
  | cons l noise ih =>
    intro k hn hk
    have hk' : (k + 1) + noise.length < 100 := by
      simp only [List.length_cons] at hk
      omega
    have ih' := ih (k + 1) (fun x hx => hn x (List.mem_cons_of_mem _ hx)) hk'
    show readMessageLoop jsonLoads (l :: (noise ++ L :: rest)) [] k = some v
    unfold readMessageLoop
    rw [if_neg (by omega)]
    dsimp only
    rcases hn l (by simp) with hemp | ⟨hchunk, hstart⟩
    · rw [hemp]
      exact ih'
    · cases hsd : (listStrip l.data).isEmpty with
      | true => rw [if_pos rfl]; exact ih'
      | false =>
        rw [if_neg (by simp [hsd]), if_neg (by simp [hchunk]), if_pos (by simp [hstart])]
        exact ih'

/-- Counterexample to claim C6 as stated: a noise line that does not start
with `\x7b` or `[` but contains both "chunk" and "limit" is not discarded —
the reader returns `None` instead of the JSON value parsed from the
following line. -/
theorem claim6_reader_counterexample :
    startsWithBracket (listStrip "chunk limit".data) = false ∧
    jl0 "\x7b\x7d" = some 1 ∧
    startsWithBracket (listStrip "\x7b\x7d".data) = true ∧
    read_message jl0 ["chunk limit", "\x7b\x7d"] = none := by decide

/-- Claim C6, amended: the reader discards any number (fewer than the
100-line abandon bound) of empty/whitespace-only lines and of noise lines
that neither start with `\x7b`/`[` nor contain both "chunk" and "limit"
case-insensitively (such a line makes the reader return `None` — the
counterexample above), and returns the value parsed from the first line
whose stripped text starts with `\x7b` or `[`, provided that line also
avoids the chunk/limit pattern; parsing is attempted after each
accumulation, so nothing after the first successful parse is read. -/
theorem claim6_reader_skips_noise {J : Type} (jsonLoads : String → Option J)
    (noise : List String) (L : String) (rest : List String) (v : J)
    (hnoise : ∀ l ∈ noise,
        listStrip l.data = [] ∨
        ((listInfix "chunk".data ((listStrip l.data).map charLower) &&
            listInfix "limit".data ((listStrip l.data).map charLower)) = false ∧
         startsWithBracket (listStrip l.data) = false))
    (hlen : noise.length < 100)
    (hL : startsWithBracket (listStrip L.data) = true)
    (hLchunk : (listInfix "chunk".data ((listStrip L.data).map charLower) &&
        listInfix "limit".data ((listStrip L.data).map charLower)) = false)
    (hparse : jsonLoads (String.mk (listStrip L.data)) = some v) :
    read_message jsonLoads (noise ++ L :: rest) = some v :=
  readMessageLoop_noise jsonLoads L rest v hL hLchunk hparse noise 0 hnoise (by omega)

/-- Witness for the amended C6: an npm progress line, a blank line and a
whitespace line are skipped and the object line is parsed. -/
theorem claim6_reader_skips_noise_witness :
    read_message jl0 ["npm install progress", "", "   ", "\x7b\x7d"] = some 1 :=
  claim6_reader_skips_noise jl0 ["npm install progress", "", "   "] "\x7b\x7d" [] 1
    (by decide) (by decide) (by decide) (by decide) (by decide)

theorem search_process_server_depth0 (ratio : String → String → ℚ) (reg : RegistryState)
    (m : ManifestData) (ns : Option String) (ql : String) (s : String)
    {oe : Option ServerEntry} {ms mc mt : List String}
    (h : search_process_server ratio reg m ns ql 0 false s = .ok (oe, ms, mc, mt)) :
    ∀ e ∈ oe.toList, e.categories = none ∧ e.matched_categories = none ∧
      e.tools = none ∧ e.matched_tools = none := by
  unfold search_process_server at h
  simp only [Bool.or_false, if_false, Bool.false_eq_true,
    show decide ((1 : Nat) ≤ 0) = false from rfl,
    if_neg (show ¬((1 : Nat) ≤ 0) by omega), if_neg (show ¬((2 : Nat) ≤ 0) by omega)] at h
  by_cases hsc : min_similarity ≤ fuzzy_match ratio ql (pyLower s) min_similarity
  · simp only [decide_eq_true hsc, eq_self_iff_true, if_true] at h
    simp only [Except.ok.injEq, Prod.mk.injEq] at h
    obtain ⟨h1, _⟩ := h
    subst h1
    intro e he
    split at he
    · simp only [Option.toList_some, List.mem_singleton] at he
      subst he
      exact ⟨rfl, rfl, rfl, rfl⟩
    · exact absurd he (by simp)
  · simp only [decide_eq_false hsc, Bool.false_eq_true, if_false] at h
    simp only [Except.ok.injEq, Prod.mk.injEq] at h
    obtain ⟨h1, _⟩ := h
    subst h1
    intro e he
    exact absurd he (by simp)

theorem search_servers_depth0 (ratio : String → String → ℚ) (reg : RegistryState)
    (m : ManifestData) (ns : Option String) (ql : String) :
    ∀ (servers : List String) (entries ms mc mt : List _),
      search_servers ratio reg m ns ql 0 false servers = .ok (entries, ms, mc, mt) →
      ∀ e ∈ entries, e.categories = none ∧ e.matched_categories = none ∧
        e.tools = none ∧ e.matched_tools = none := by
  intro servers
  induction servers with
  | nil =>
    intro entries ms mc mt h e he
    simp only [search_servers, Except.ok.injEq, Prod.mk.injEq] at h
    obtain ⟨h1, _⟩ := h
    subst h1
    cases he
  | cons s rest ih =>
    intro entries ms mc mt h e he
    unfold search_servers at h
    cases hp : search_process_server ratio reg m ns ql 0 false s with
    | error err =>
      simp only [hp] at h
      exact Except.noConfusion h
    | ok tup =>
      obtain ⟨oe, ms1, mc1, mt1⟩ := tup
      cases hr : search_servers ratio reg m ns ql 0 false rest with
      | error err =>
        simp only [hp, hr] at h
        exact Except.noConfusion h
      | ok tup2 =>
        obtain ⟨es, ms2, mc2, mt2⟩ := tup2
        simp only [hp, hr, Except.ok.injEq, Prod.mk.injEq] at h
        obtain ⟨h1, _⟩ := h
        subst h1
        rcases List.mem_append.mp he with hel | hel
        · exact search_process_server_depth0 ratio reg m ns ql s hp e hel
        · exact ih es ms2 mc2 mt2 hr e hel

/-- Claim C9: for every query and namespace, each entry of the results list
returned by `search` at depth 0 carries only the server name and its match
score — the `categories`, `matched_categories`, `tools` and `matched_tools`
keys are all absent. -/
theorem claim9_search_depth0_minimal (ratio : String → String → ℚ) (reg : RegistryState)
    (q : String) (ns : Option String) (r : SearchResults) (e : ServerEntry)
    (hs : search ratio reg q ns 0 = .ok (.results r)) (he : e ∈ r.results) :
    e.categories = none ∧ e.matched_categories = none ∧ e.tools = none ∧
      e.matched_tools = none := by
  unfold search at hs
  cases hm : reg.manifest with
  | none =>
    simp only [hm] at hs
    exact absurd hs (by simp)
  | some m =>
    rw [hm] at hs
    dsimp only at hs
    cases hg : get_servers reg ns with
    | error err =>
      simp only [hg] at hs
      exact Except.noConfusion hs
    | ok servers =>
      simp only [hg] at hs
      simp only [show decide ((1 : Nat) ≤ 0) = false from rfl, Bool.false_and] at hs
      cases hss : search_servers ratio reg m ns
          (if q.isEmpty = true then "" else pyLower q) 0 false servers with
      | error err =>
        simp only [hss] at hs
        exact Except.noConfusion hs
      | ok tup =>
        obtain ⟨entries, ms, mc, mt⟩ := tup
        simp only [hss, Except.ok.injEq, SearchOutcome.results.injEq] at hs
        have hres : r.results = entries := by rw [← hs]
        rw [hres] at he
        exact search_servers_depth0 ratio reg m ns _ servers entries ms mc mt hss e he

/-- Witness for C9: the concrete one-server registry searched at depth 0
yields exactly one entry holding only the server name and score. -/
theorem claim9_search_depth0_minimal_witness :
    (({ server := "echo", match_score := 1, categories := none, matched_categories := none,
        tools := none, matched_tools := none } : ServerEntry).categories = none ∧
     ({ server := "echo", match_score := 1, categories := none, matched_categories := none,
        tools := none, matched_tools := none } : ServerEntry).matched_categories = none ∧
     ({ server := "echo", match_score := 1, categories := none, matched_categories := none,
        tools := none, matched_tools := none } : ServerEntry).tools = none ∧
     ({ server := "echo", match_score := 1, categories := none, matched_categories := none,
        tools := none, matched_tools := none } : ServerEntry).matched_tools = none) :=
  claim9_search_depth0_minimal ratio0 reg0 "echo" none
    { query := "echo", namespace_ := none, max_depth := 0,
      results := [{ server := "echo", match_score := 1, categories := none,
                    matched_categories := none, tools := none, matched_tools := none }],
      matchesInfo := { servers := ["echo"], categories := [], tools := [] },
      total_matches := 1 }
    { server := "echo", match_score := 1, categories := none, matched_categories := none,
      tools := none, matched_tools := none }
    (by rfl) (by simp)

theorem resolve_recursive_eq (table : NsTable) (ns : String) (visiting : List String) :
    resolve_recursive table ns visiting =
      if ns ∈ visiting then []
      else
        match lookupNs table ns with
        | none => []
        | some d =>
          nsServers d ++ (nsExtends d).flatMap (fun e => resolve_recursive table e (ns :: visiting)) := by
  rw [resolve_recursive.eq_def]
  by_cases hv : ns ∈ visiting
  · simp [hv]
  · simp only [if_neg hv]
    cases lookupNs table ns <;> rfl

theorem mem_resolve_recursive {table : NsTable} {x : String} :
    ∀ (n : Nat) (ns : String) (visiting : List String),
      remainingKeys table visiting ≤ n →
      x ∈ resolve_recursive table ns visiting →
      ∃ m d, Reaches table ns m ∧ lookupNs table m = some d ∧ x ∈ nsServers d := by
  intro n
  induction n with
  | zero =>
    intro ns visiting hle hx
    by_cases hv : ns ∈ visiting
    · rw [resolve_recursive_eq, if_pos hv] at hx
      cases hx
    · cases hl : lookupNs table ns with
      | none =>
        rw [resolve_recursive_eq, if_neg hv] at hx
        simp only [hl] at hx
        cases hx
      | some d =>
        exact absurd (remainingKeys_lt (lookupNs_mem_keys hl) hv) (by omega)
  | succ n ih =>
    intro ns visiting hle hx
    by_cases hv : ns ∈ visiting
    · rw [resolve_recursive_eq, if_pos hv] at hx
      cases hx
    · cases hl : lookupNs table ns with
      | none =>
        rw [resolve_recursive_eq, if_neg hv] at hx
        simp only [hl] at hx
        cases hx
      | some d =>
        rw [resolve_recursive_eq, if_neg hv] at hx
        simp only [hl] at hx
        rcases List.mem_append.mp hx with hs | hf
        · exact ⟨ns, d, .refl ns d hl, hl, hs⟩
        · obtain ⟨e, he, hxe⟩ := List.mem_flatMap.mp hf
          have hlt := remainingKeys_lt (lookupNs_mem_keys hl) hv
          obtain ⟨m2, d2, hr, hl2, hx2⟩ := ih e (ns :: visiting) (by omega) hxe
          exact ⟨m2, d2, .step ns e m2 d hl he hr, hl2, hx2⟩

theorem reaches_via_of_reaches {table : NsTable} {a m : String}
    (h : Reaches table a m) : ∃ p, ReachesVia table a p m := by
  induction h with
  | refl ns d hl => exact ⟨[ns], .refl ns d hl⟩
  | step ns e m d hl he _ ih =>
    obtain ⟨p, hp⟩ := ih
    exact ⟨ns :: p, .step ns e m p d hl he hp⟩

theorem reaches_via_head {table : NsTable} {a : String} {p : List String} {m : String}
    (h : ReachesVia table a p m) : ∃ p2, p = a :: p2 := by
  cases h with
  | refl ns d hl => exact ⟨[], rfl⟩
  | step ns e _ p0 d hl he hr => exact ⟨p0, rfl⟩

theorem reaches_via_suffix {table : NsTable} {a : String} {p : List String} {m : String}
    (h : ReachesVia table a p m) :
    ∀ b ∈ p, ∃ q, ReachesVia table b q m ∧ q.length ≤ p.length ∧ ∀ y ∈ q, y ∈ p := by
  induction h with
  | refl ns d hl =>
    intro b hb
    simp only [List.mem_singleton] at hb
    subst hb
    exact ⟨[b], .refl b d hl, le_rfl, fun y hy => hy⟩
  | step ns e m p0 d hl he hr ih =>
    intro b hb
    rcases List.mem_cons.mp hb with rfl | hb2
    · exact ⟨b :: p0, .step b e m p0 d hl he hr, le_rfl, fun y hy => hy⟩
    · obtain ⟨q, hq, hlen, hsub⟩ := ih b hb2
      exact ⟨q, hq, le_trans hlen (by simp), fun y hy => List.mem_cons_of_mem _ (hsub y hy)⟩

theorem resolve_recursive_complete {table : NsTable} {x : String} :
    ∀ (n : Nat) (p : List String) (ns m : String) (d : NsDef) (visiting : List String),
      p.length ≤ n →
      ReachesVia table ns p m →
      (∀ y ∈ p, y ∉ visiting) →
      lookupNs table m = some d → x ∈ nsServers d →
      x ∈ resolve_recursive table ns visiting := by
  intro n
  induction n with
  | zero =>
    intro p ns m d visiting hlen hvia _ _ _
    obtain ⟨p2, rfl⟩ := reaches_via_head hvia
    simp at hlen
  | succ n ih =>
    intro p ns m d visiting hlen hvia hdisj hm hx
    have hns : ns ∉ visiting := by
      obtain ⟨p2, hp2⟩ := reaches_via_head hvia
      exact hdisj ns (by rw [hp2]; exact List.mem_cons_self _ _)
    cases hvia with
    | refl ns d0 h0 =>
      rw [resolve_recursive_eq, if_neg hns]
      simp only [h0]
      rw [h0] at hm
      have hd : d0 = d := Option.some.inj hm
      exact List.mem_append_left _ (hd ▸ hx)
    | step ns e m p0 d0 h0 he hvia0 =>
      by_cases hmem : ns ∈ p0
      · obtain ⟨q, hq, hqlen, hqsub⟩ := reaches_via_suffix hvia0 ns hmem
        refine ih q ns m d visiting ?_ hq ?_ hm hx
        · simp only [List.length_cons] at hlen
          omega
        · intro y hy
          exact hdisj y (List.mem_cons_of_mem _ (hqsub y hy))
      · rw [resolve_recursive_eq, if_neg hns]
        simp only [h0]
        refine List.mem_append_right _ ?_
        refine List.mem_flatMap.mpr ⟨e, he, ?_⟩
        refine ih p0 e m d (ns :: visiting) ?_ hvia0 ?_ hm hx
        · simp only [List.length_cons] at hlen
          omega
        · intro y hy hyv
          rcases List.mem_cons.mp hyv with rfl | hyv2
          · exact hmem hy
          · exact hdisj y (List.mem_cons_of_mem _ hy) hyv2

unseal resolveVisits in
/-- Counterexample to the parenthetical of claim C2: in the diamond graph
`a → \x7bb, c\x7d → d`, one call `resolve_namespace("a")` visits `d` twice —
the visiting set only prevents revisits along the current recursion path,
not per call.  (Termination and the result are unaffected.) -/
theorem claim2_resolve_visits_counterexample :
    resolveVisits tblDiamond "a" [] "d" = 2 := by decide

/-- Claim C2, amended: for every namespace table, cyclic `extends` included,
`resolve_namespace(N)` for any `N` present in the table terminates (the
embedding is a total function; each namespace appears at most once on any
recursion path, though it may be visited more than once per call — see the
counterexample) and returns the deduplicated sorted list of the union of the
`servers` of every namespace reachable from `N` along `extends` edges. -/
theorem claim2_resolve_namespace_reachable (table : NsTable) (ns : String)
    (h : (lookupNs table ns).isSome = true) :
    ∃ l, resolve_namespace table ns = some l ∧
      List.Sorted (· ≤ ·) l ∧ l.Nodup ∧
      ∀ x, x ∈ l ↔ ∃ m d, Reaches table ns m ∧ lookupNs table m = some d ∧
        x ∈ nsServers d := by
  obtain ⟨d0, hd0⟩ := Option.isSome_iff_exists.mp h
  refine ⟨pySorted ((resolve_recursive table ns []).dedup), ?_, ?_, ?_, ?_⟩
  · unfold resolve_namespace
    rw [hd0]
  · exact List.sorted_mergeSort' _
  · have hperm := List.mergeSort_perm ((resolve_recursive table ns []).dedup)
      (fun a b => decide (a ≤ b))
    exact hperm.symm.nodup (List.nodup_dedup _)
  · intro x
    have hperm := List.mergeSort_perm ((resolve_recursive table ns []).dedup)
      (fun a b => decide (a ≤ b))
    unfold pySorted
    rw [hperm.mem_iff, List.mem_dedup]
    constructor
    · intro hx
      exact mem_resolve_recursive (remainingKeys table []) ns [] le_rfl hx
    · rintro ⟨m, d, hr, hm, hx⟩
      obtain ⟨p, hp⟩ := reaches_via_of_reaches hr
      exact resolve_recursive_complete p.length p ns m d [] le_rfl hp (by simp) hm hx

/-- Witness for the amended C2 at the two-namespace cycle `a ↔ b`. -/
theorem claim2_resolve_namespace_reachable_witness :
    ∃ l, resolve_namespace tblCycle "a" = some l ∧
      List.Sorted (· ≤ ·) l ∧ l.Nodup ∧
      ∀ x, x ∈ l ↔ ∃ m d, Reaches tblCycle "a" m ∧ lookupNs tblCycle m = some d ∧
        x ∈ nsServers d :=
  claim2_resolve_namespace_reachable tblCycle "a" (by decide)
